import Mathlib

/-!
Verification of the goal-tracking application core: the data model
(types.ts), the goal-repository mutation handlers, the derived-view
engine (grouping, sorting, progress percentage) and the notification
scanner (App.tsx), and the AI advisory client wrapper
(geminiService.ts), shallowly embedded in Lean.

Conventions of the embedding:
* JavaScript millisecond timestamps and numeric fields become `Int`.
* Floating-point arithmetic in the progress formula becomes exact `ℚ`
  arithmetic; the literal `0.0001` is the rational `1/10000`.
* `Math.round` becomes `jsRound q = ⌊q + 1/2⌋` (round half up, the JS
  behaviour for the non-negative values arising here).
* `Array.prototype.sort(cmp)` with a consistent comparator is a stable
  sort; it is embedded as `List.insertionSort` (stable) over the
  relation `cmp a b ≤ 0`.
* Fallible `async` calls become `Except Unit`; an `await` of a rejected
  promise aborts the enclosing function, modelled by propagating
  `Except.error`.
-/

/-- enum GoalLevel from types.ts. -/
inductive GoalLevel
  | easy
  | medium
  | hard
deriving DecidableEq

/-- enum GoalPriority from types.ts. -/
inductive GoalPriority
  | low
  | medium
  | high
deriving DecidableEq

/-- interface SubTask from types.ts.  The optional `deleted` flag is
modelled as a plain `Bool` (JS `undefined` coerces to `false`, and the
load path normalises it with `!!t.deleted`). -/
structure SubTask where
  id : String
  text : String
  completed : Bool
  currentProgress : Int
  targetProgress : Int
  level : GoalLevel
  priority : GoalPriority
  deadline : Option Int
  tip : Option String
  deleted : Bool
deriving DecidableEq

/-- interface Goal from types.ts.  `area` is a plain string: it is either
one of the built-in LifeArea enum strings or a user-defined category
label.  The optional `archived` flag is normalised to `Bool` the same
way the load path does (`!!g.archived`). -/
structure Goal where
  id : String
  title : String
  description : String
  level : GoalLevel
  priority : GoalPriority
  area : String
  deadline : Option Int
  estimatedCost : Int
  subTasks : List SubTask
  completed : Bool
  createdAt : Int
  completedAt : Option Int
  lastInteractionAt : Int
  pinned : Bool
  order : Int
  achievedMilestones : List Int
  archived : Bool
deriving DecidableEq

/-- Math.round for the non-negative rationals produced by the progress
formula: round half toward positive infinity. -/
def jsRound (q : ℚ) : Int := ⌊q + 1/2⌋

/-! ## Sub-task operations (App.tsx) -/

/-- The per-sub-task update applied by `handleSubTaskProgress` to the
sub-task whose id matches: clamp `currentProgress + delta` into
`[0, max 1 targetProgress]` and recompute `completed`.
(`t.targetProgress || 0` followed by `Math.max(1, ·)` is `max 1
t.targetProgress` on integers.) -/
def progressStep (delta : Int) (t : SubTask) : SubTask :=
  let target := max 1 t.targetProgress
  let nextProgress := max 0 (min target (t.currentProgress + delta))
  { t with currentProgress := nextProgress
         , completed := decide (nextProgress ≥ target) }

/-- The per-sub-task update applied by `handleToggleSubTask` to the
sub-task whose id matches: flip `completed`, and snap `currentProgress`
to the target (toggled on) or to 0 (toggled off). -/
def toggleStep (t : SubTask) : SubTask :=
  let nextCompleted := !t.completed
  let target := max 1 t.targetProgress
  { t with completed := nextCompleted
         , currentProgress := if nextCompleted then target else 0 }

/-- A sub-task operation: a progress increment/decrement with an
arbitrary delta, or the boolean toggle. -/
inductive SubTaskOp
  | progress (delta : Int)
  | toggle

/-- Apply one sub-task operation. -/
def applySubTaskOp (o : SubTaskOp) (t : SubTask) : SubTask :=
  match o with
  | .progress delta => progressStep delta t
  | .toggle => toggleStep t

/-- Apply a sequence of sub-task operations, oldest first. -/
def applySubTaskOps (ops : List SubTaskOp) (t : SubTask) : SubTask :=
  ops.foldl (fun s o => applySubTaskOp o s) t

/-- The sub-task completion invariant claimed by the spec. -/
def subTaskInv (t : SubTask) : Prop :=
  t.completed = true ↔ t.currentProgress ≥ max 1 t.targetProgress

/-! ## Progress percentage (renderGoalCard, App.tsx) -/

/-- Sum of `max(1, targetProgress)` over the non-deleted sub-tasks
(`totalTarget` in renderGoalCard). -/
def totalTarget (g : Goal) : Int :=
  ((g.subTasks.filter (fun t => !t.deleted)).map
    (fun t => max 1 t.targetProgress)).sum

/-- Sum of `currentProgress` over the non-deleted sub-tasks
(`totalCurrent` in renderGoalCard; `t.currentProgress || 0` is the
identity on our integer model). -/
def totalCurrent (g : Goal) : Int :=
  ((g.subTasks.filter (fun t => !t.deleted)).map
    (fun t => t.currentProgress)).sum

/-- The raw `progressPct` computed by renderGoalCard, before the
display cap `Math.min(100, ·)`. -/
def computeProgressPct (g : Goal) (now : Int) : Int :=
  if g.completed then 100
  else if 0 < totalTarget g then
    let completionFrac : ℚ := (totalCurrent g : ℚ) / (totalTarget g : ℚ)
    match g.deadline with
    | none => jsRound (completionFrac * 100)
    | some dl =>
      let totalDuration : ℚ := ((max 1 (dl - g.createdAt) : Int) : ℚ)
      let elapsed : ℚ := ((max 1 (now - g.createdAt) : Int) : ℚ)
      let timeFrac : ℚ := max 0.0001 (min 1 (elapsed / totalDuration))
      jsRound (completionFrac / timeFrac * 100)
  else 0

theorem totalTarget_nonneg (g : Goal) : 0 ≤ totalTarget g := by
  refine List.sum_nonneg ?_
  intro x hx
  simp only [List.mem_map] at hx
  obtain ⟨t, _, rfl⟩ := hx
  omega

theorem sum_current_le_sum_target (ts : List SubTask)
    (h : ∀ t ∈ ts, t.deleted = false →
      0 ≤ t.currentProgress ∧ t.currentProgress ≤ max 1 t.targetProgress) :
    ((ts.filter (fun t => !t.deleted)).map (fun t => t.currentProgress)).sum
      ≤ ((ts.filter (fun t => !t.deleted)).map
          (fun t => max 1 t.targetProgress)).sum := by
  induction ts with
  | nil => simp
  | cons t rest ih =>
    have hrest : ∀ u ∈ rest, u.deleted = false →
        0 ≤ u.currentProgress ∧ u.currentProgress ≤ max 1 u.targetProgress := by
      intro u hu
      exact h u (by simp [hu])
    have ih' := ih hrest
    by_cases hd : t.deleted = true
    · simpa [List.filter_cons, hd] using ih'
    · have hd' : t.deleted = false := by simpa using hd
      have hb := (h t (by simp) hd').2
      simp only [List.filter_cons, hd', Bool.not_false, if_true,
        List.map_cons, List.sum_cons]
      omega

theorem totalCurrent_le_totalTarget (g : Goal)
    (h : ∀ t ∈ g.subTasks, t.deleted = false →
      0 ≤ t.currentProgress ∧ t.currentProgress ≤ max 1 t.targetProgress) :
    totalCurrent g ≤ totalTarget g :=
  sum_current_le_sum_target g.subTasks h

theorem jsRound_le_of_le {q : ℚ} (h : q ≤ 100) : jsRound q ≤ 100 := by
  unfold jsRound
  have h1 : q + 1/2 ≤ 100 + 1/2 := by linarith
  have h2 : ⌊q + 1/2⌋ ≤ ⌊(100 : ℚ) + 1/2⌋ := Int.floor_le_floor h1
  have h3 : ⌊(100 : ℚ) + 1/2⌋ = 100 := by norm_num [Int.floor_eq_iff]
  omega

/-- C8 sample sub-task. -/
def tC8 : SubTask :=
  { id := "t1", text := "read a chapter", completed := false
  , currentProgress := 0, targetProgress := 4
  , level := .medium, priority := .medium, deadline := none
  , tip := none, deleted := false }

/-- C10 sample goal. -/
def gC10 : Goal :=
  { id := "g10", title := "Walk daily", description := ""
  , level := .medium, priority := .medium, area := "Health & Wellness"
  , deadline := none, estimatedCost := 0
  , subTasks := [{ tC8 with currentProgress := 2 }]
  , completed := false, createdAt := 0, completedAt := none
  , lastInteractionAt := 0, pinned := false, order := 0
  , achievedMilestones := [], archived := false }

theorem progressStep_inv (delta : Int) (t : SubTask) :
    subTaskInv (progressStep delta t) := by
  unfold subTaskInv progressStep
  simp only [decide_eq_true_eq]

theorem toggleStep_inv (t : SubTask) : subTaskInv (toggleStep t) := by
  unfold subTaskInv toggleStep
  cases t.completed <;> simp

theorem applySubTaskOp_inv (o : SubTaskOp) (t : SubTask) :
    subTaskInv (applySubTaskOp o t) := by
  cases o with
  | progress delta => exact progressStep_inv delta t
  | toggle => exact toggleStep_inv t

theorem applySubTaskOps_inv (ops : List SubTaskOp) (t : SubTask)
    (h : ops ≠ []) : subTaskInv (applySubTaskOps ops t) := by
  induction ops generalizing t with
  | nil => exact absurd rfl h
  | cons o rest ih =>
    cases rest with
    | nil => exact applySubTaskOp_inv o t
    | cons o2 rest2 =>
      have : applySubTaskOps (o :: o2 :: rest2) t =
          applySubTaskOps (o2 :: rest2) (applySubTaskOp o t) := rfl
      rw [this]
      exact ih (applySubTaskOp o t) (by simp)

/-- C8: after any sequence of sub-task operations the flag `completed`
is true exactly when `currentProgress ≥ max 1 targetProgress`;
decrementing from the target flips `completed` back to false, and
incrementing from one below the target flips it to true. -/
theorem c8_subtask_completion (t : SubTask) (ops : List SubTaskOp)
    (hops : ops ≠ []) :
    subTaskInv (applySubTaskOps ops t)
    ∧ (t.currentProgress = max 1 t.targetProgress →
        (progressStep (-1) t).completed = false)
    ∧ (t.currentProgress = max 1 t.targetProgress - 1 →
        (progressStep 1 t).completed = true) := by
  refine ⟨applySubTaskOps_inv ops t hops, ?_, ?_⟩
  · intro h
    unfold progressStep
    simp only [decide_eq_true_eq, decide_eq_false_iff_not]
    omega
  · intro h
    unfold progressStep
    simp only [decide_eq_true_eq]
    omega

/-- Witness for C8 at a concrete sub-task and operation sequence. -/
theorem c8_subtask_completion_witness :
    ([SubTaskOp.progress 1, SubTaskOp.progress 2] ≠ ([] : List SubTaskOp))
    ∧ subTaskInv
        (applySubTaskOps [SubTaskOp.progress 1, SubTaskOp.progress 2] tC8) := by
  have h := c8_subtask_completion tC8
    [SubTaskOp.progress 1, SubTaskOp.progress 2] (by simp)
  exact ⟨by simp, h.1⟩

/-- C10: a progress operation always lands `currentProgress` inside
`[0, max 1 targetProgress]` (and leaves `targetProgress` unchanged);
consequently, on a goal all of whose non-deleted sub-tasks satisfy that
bound, the summed current progress is at most the summed target, the
completion fraction is at most 1, and a non-completed goal without a
deadline has raw progress at most 100. -/
theorem c10_progress_bounded (t : SubTask) (delta : Int) (g : Goal)
    (hg : ∀ u ∈ g.subTasks, u.deleted = false →
      0 ≤ u.currentProgress ∧ u.currentProgress ≤ max 1 u.targetProgress) :
    (0 ≤ (progressStep delta t).currentProgress
      ∧ (progressStep delta t).currentProgress
          ≤ max 1 (progressStep delta t).targetProgress)
    ∧ totalCurrent g ≤ totalTarget g
    ∧ (0 < totalTarget g →
        (totalCurrent g : ℚ) / (totalTarget g : ℚ) ≤ 1)
    ∧ (g.completed = false → g.deadline = none →
        ∀ now, computeProgressPct g now ≤ 100) := by
  have hsum := totalCurrent_le_totalTarget g hg
  refine ⟨?_, hsum, ?_, ?_⟩
  · unfold progressStep
    simp only
    omega
  · intro hpos
    rw [div_le_one (by exact_mod_cast hpos)]
    exact_mod_cast hsum
  · intro hc hd now
    unfold computeProgressPct
    rw [hc, hd]
    simp only [Bool.false_eq_true, if_false]
    by_cases hpos : 0 < totalTarget g
    · rw [if_pos hpos]
      refine jsRound_le_of_le ?_
      have hfrac : (totalCurrent g : ℚ) / (totalTarget g : ℚ) ≤ 1 := by
        rw [div_le_one (by exact_mod_cast hpos)]
        exact_mod_cast hsum
      nlinarith [hfrac]
    · rw [if_neg hpos]
      norm_num

/-- Witness for C10 at a concrete sub-task, delta and goal. -/
theorem c10_progress_bounded_witness :
    (∀ u ∈ gC10.subTasks, u.deleted = false →
      0 ≤ u.currentProgress ∧ u.currentProgress ≤ max 1 u.targetProgress)
    ∧ totalCurrent gC10 ≤ totalTarget gC10 := by
  have hg : ∀ u ∈ gC10.subTasks, u.deleted = false →
      0 ≤ u.currentProgress ∧ u.currentProgress ≤ max 1 u.targetProgress := by
    intro u hu
    simp only [gC10, List.mem_singleton] at hu
    subst hu
    intro
    constructor <;> decide
  exact ⟨hg, (c10_progress_bounded tC8 (-3) gC10 hg).2.1⟩

/-! ## C1: the progress percentage formula -/

/-- clamp(x, lo, hi) as used by the spec text. -/
def clamp (x lo hi : ℚ) : ℚ := max lo (min hi x)

/-- Modelled from the specification wording of `computeProgress(goal,
now)`: 0 when there is no non-deleted sub-task, otherwise the rounded
completion ratio, divided by the clamped time ratio when a deadline
exists. -/
def specProgress (g : Goal) (now : Int) : Int :=
  let subs := g.subTasks.filter (fun t => !t.deleted)
  if subs.isEmpty then 0
  else
    let cur : Int := (subs.map (fun t => t.currentProgress)).sum
    let tgt : Int := (subs.map (fun t => max 1 t.targetProgress)).sum
    let completionFrac : ℚ := (cur : ℚ) / (tgt : ℚ)
    match g.deadline with
    | none => jsRound (completionFrac * 100)
    | some dl =>
      let timeFrac : ℚ :=
        clamp (((max 1 (now - g.createdAt) : Int) : ℚ)
            / ((max 1 (dl - g.createdAt) : Int) : ℚ)) (1/10000) 1
      jsRound (completionFrac / timeFrac * 100)

theorem totalTarget_pos_iff (g : Goal) :
    0 < totalTarget g ↔ g.subTasks.filter (fun t => !t.deleted) ≠ [] := by
  unfold totalTarget
  cases hf : g.subTasks.filter (fun t => !t.deleted) with
  | nil => simp
  | cons t rest =>
    simp only [List.map_cons, List.sum_cons, ne_eq, reduceCtorEq,
      not_false_eq_true, iff_true]
    have hrest : (0:Int) ≤ (rest.map (fun t => max 1 t.targetProgress)).sum := by
      refine List.sum_nonneg ?_
      intro x hx
      simp only [List.mem_map] at hx
      obtain ⟨u, _, rfl⟩ := hx
      omega
    omega

/-- C1 sample goal: created at time 0, deadline 10 days later, one
sub-task with target 4 and current progress 2. -/
def gC1 : Goal :=
  { id := "g1", title := "Train", description := ""
  , level := .medium, priority := .medium, area := "Health & Wellness"
  , deadline := some 864000000, estimatedCost := 0
  , subTasks := [{ tC8 with currentProgress := 2, targetProgress := 4 }]
  , completed := false, createdAt := 0, completedAt := none
  , lastInteractionAt := 0, pinned := false, order := 0
  , achievedMilestones := [], archived := false }

/-- C1: for every non-archived, non-completed goal the raw progress
computed by renderGoalCard equals the specification formula (0 without
non-deleted sub-tasks, otherwise the rounded completion ratio, divided
by the clamped time ratio when a deadline exists); the spec example —
created now, deadline now+10 days, one sub-task target 4 current 2,
evaluated at now+5 days — yields raw progress 100. -/
theorem c1_progress_formula :
    (∀ (g : Goal) (now : Int), g.archived = false → g.completed = false →
      computeProgressPct g now = specProgress g now)
    ∧ computeProgressPct gC1 432000000 = 100 := by
  constructor
  · intro g now _ hc
    unfold computeProgressPct specProgress
    rw [hc]
    by_cases hne : g.subTasks.filter (fun t => !t.deleted) = []
    · have hz : ¬ 0 < totalTarget g := by
        simp [totalTarget_pos_iff, hne]
      simp [hne, hz]
    · have hp : 0 < totalTarget g := (totalTarget_pos_iff g).mpr hne
      have hie : (g.subTasks.filter (fun t => !t.deleted)).isEmpty = false := by
        simpa [List.isEmpty_iff] using hne
      simp only [Bool.false_eq_true, if_false, hie]
      rw [if_pos hp]
      simp only [totalTarget, totalCurrent, clamp]
      cases g.deadline with
      | none => norm_num
      | some dl => norm_num
  · norm_num [computeProgressPct, totalTarget, totalCurrent, gC1, tC8,
      jsRound]

/-! ## Notification Scanner (checkSystems, App.tsx) -/

/-- Kind of an AppNotification. -/
inductive NotificationType
  | nudge
  | deadline
deriving DecidableEq

/-- interface AppNotification from App.tsx. -/
structure AppNotification where
  id : String
  type : NotificationType
  title : String
  message : String
  timestamp : Int
deriving DecidableEq

/-- The guard of the deadline-alert branch of checkSystems:
`!g.completed && !g.archived && g.deadline` followed by
`daysLeft > 0 && daysLeft <= 3` with
`daysLeft = (g.deadline - now) / 86400000` in floating point
(exact ℚ here).  JS truthiness makes a deadline of exactly 0 falsy. -/
def emitsDeadlineAlert (g : Goal) (now : Int) : Bool :=
  !g.completed && !g.archived &&
    (match g.deadline with
     | some dl =>
       dl != 0 &&
         (decide ((0:ℚ) < ((dl - now : Int) : ℚ) / 86400000) &&
          decide (((dl - now : Int) : ℚ) / 86400000 ≤ 3))
     | none => false)

/-- The deadline alerts pushed by one scan, in goal-list order. -/
def deadlineAlerts (goals : List Goal) (now : Int) : List AppNotification :=
  (goals.filter (fun x => emitsDeadlineAlert x now)).map (fun x =>
    { id := "deadline-" ++ x.id
    , type := .deadline
    , title := "Deadline approaching"
    , message := "Your goal \"" ++ x.title ++ "\" ends soon. Take a small step today!"
    , timestamp := now })

/-- `4 * 24 * 60 * 60 * 1000` from checkSystems. -/
def fourDaysMs : Int := 4 * 24 * 60 * 60 * 1000

/-- `goals.filter(active).sort(by lastInteractionAt)[0]`: the first
element, in stable ascending order of `lastInteractionAt`, of the
non-completed non-archived goals. -/
def neglectedGoal (goals : List Goal) : Option Goal :=
  (List.insertionSort
    (fun a b : Goal => a.lastInteractionAt ≤ b.lastInteractionAt)
    (goals.filter (fun x => !x.completed && !x.archived))).head?

/-- getFriendlyNudge from geminiService.ts: no try/catch, so a rejected
generateContent call propagates; on success the possibly-missing text
defaults to the empty string and is trimmed. -/
def getFriendlyNudge (aiResponse : Except Unit (Option String)) :
    Except Unit String :=
  match aiResponse with
  | .error e => .error e
  | .ok t => .ok (t.getD "").trim

/-- checkSystems from App.tsx: collect the deadline alerts, then, if the
least-recently-touched active goal is more than four days stale, await
the AI nudge text and append the nudge notification.  The `await` of a
rejected promise aborts the whole async function before
`setNotifications` runs, so on AI failure no notification of this scan
is delivered: the result is `Except.error`. -/
def checkSystems (goals : List Goal) (now : Int)
    (aiResponse : Except Unit (Option String)) :
    Except Unit (List AppNotification) :=
  let deadlineNotes := deadlineAlerts goals now
  match neglectedGoal goals with
  | some g =>
    if fourDaysMs < now - g.lastInteractionAt then
      match getFriendlyNudge aiResponse with
      | .error e => .error e
      | .ok msg =>
        .ok (deadlineNotes ++
          [{ id := "nudge-" ++ g.id
           , type := .nudge
           , title := "A gentle nudge"
           , message := msg
           , timestamp := now }])
    else .ok deadlineNotes
  | none => .ok deadlineNotes

theorem string_append_left_cancel {p a b : String}
    (h : p ++ a = p ++ b) : a = b := by
  have h2 : (p ++ a).data = (p ++ b).data := congrArg String.data h
  rw [String.data_append, String.data_append] at h2
  exact String.ext (List.append_cancel_left h2)

theorem emitsDeadlineAlert_iff (g : Goal) (now dl : Int)
    (hc : g.completed = false) (ha : g.archived = false)
    (hdl : g.deadline = some dl) (hnow : 0 ≤ now) :
    (emitsDeadlineAlert g now = true
      ↔ (0 < ((dl - now : Int) : ℚ) / 86400000
          ∧ ((dl - now : Int) : ℚ) / 86400000 ≤ 3)) := by
  have h1 : (0 < ((dl - now : Int) : ℚ) / 86400000) ↔ now < dl := by
    rw [div_pos_iff]
    norm_num
  have h2 : (((dl - now : Int) : ℚ) / 86400000 ≤ 3) ↔ dl - now ≤ 259200000 := by
    rw [div_le_iff₀ (by norm_num)]
    norm_num
    constructor <;> intro h <;> exact_mod_cast h
  unfold emitsDeadlineAlert
  rw [hc, ha, hdl]
  simp only [Bool.not_false, Bool.true_and, bne_iff_ne, ne_eq,
    Bool.and_eq_true, decide_eq_true_eq]
  rw [h1, h2]
  constructor
  · rintro ⟨-, h, h'⟩
    exact ⟨h, h'⟩
  · rintro ⟨h, h'⟩
    exact ⟨by omega, h, h'⟩

/-- C5 sample: deadline exactly 3 days after `now = 0`. -/
def gC5in : Goal := { gC10 with id := "g5a", deadline := some 259200000 }

/-- C5 sample: deadline 3 days and 1 hour after `now = 0`. -/
def gC5out : Goal := { gC10 with id := "g5b", deadline := some 262800000 }

/-- C5 sample: deadline in the past at `now = 864000000`. -/
def gC5past : Goal := { gC10 with id := "g5c", deadline := some 86400000 }

/-- C5: a scan emits a deadline notification keyed "deadline-"+goalId
for a qualifying goal with a deadline if and only if the fractional
days left lie in (0, 3]; in particular a deadline exactly 3 days away
is included, one 3 days and 1 hour away is excluded, and a past
deadline is excluded. -/
theorem c5_deadline_alert (goals : List Goal) (now : Int) (g : Goal)
    (hmem : g ∈ goals) (hids : (goals.map Goal.id).Nodup)
    (hc : g.completed = false) (ha : g.archived = false)
    (dl : Int) (hdl : g.deadline = some dl) (hnow : 0 ≤ now) :
    (("deadline-" ++ g.id) ∈ (deadlineAlerts goals now).map AppNotification.id
      ↔ (0 < ((dl - now : Int) : ℚ) / 86400000
          ∧ ((dl - now : Int) : ℚ) / 86400000 ≤ 3))
    ∧ emitsDeadlineAlert gC5in 0 = true
    ∧ emitsDeadlineAlert gC5out 0 = false
    ∧ emitsDeadlineAlert gC5past 864000000 = false := by
  refine ⟨?_, ?_, ?_, ?_⟩
  · rw [← emitsDeadlineAlert_iff g now dl hc ha hdl hnow]
    unfold deadlineAlerts
    rw [List.map_map, List.mem_map]
    constructor
    · rintro ⟨g', hg', hid⟩
      obtain ⟨hg'mem, hg'emit⟩ := List.mem_filter.mp hg'
      have hid' : g'.id = g.id :=
        string_append_left_cancel (by simpa [Function.comp] using hid)
      have : g' = g := List.inj_on_of_nodup_map hids hg'mem hmem hid'
      subst this
      exact hg'emit
    · intro hemit
      exact ⟨g, List.mem_filter.mpr ⟨hmem, hemit⟩, rfl⟩
  · norm_num [emitsDeadlineAlert, gC5in, gC10]
  · norm_num [emitsDeadlineAlert, gC5out, gC10]
  · norm_num [emitsDeadlineAlert, gC5past, gC10]

/-- Witness for C5 at a concrete goal list and time. -/
theorem c5_deadline_alert_witness :
    gC5in ∈ [gC5in]
    ∧ (("deadline-" ++ gC5in.id)
        ∈ (deadlineAlerts [gC5in] 0).map AppNotification.id
      ↔ (0 < ((259200000 - 0 : Int) : ℚ) / 86400000
          ∧ ((259200000 - 0 : Int) : ℚ) / 86400000 ≤ 3)) := by
  have h := (c5_deadline_alert [gC5in] 0 gC5in (by simp) (by simp) rfl rfl
    259200000 rfl (le_refl 0)).1
  exact ⟨by simp, h⟩

theorem deadlineAlerts_type (goals : List Goal) (now : Int) :
    ∀ n ∈ deadlineAlerts goals now, n.type = NotificationType.deadline := by
  intro n hn
  unfold deadlineAlerts at hn
  rw [List.mem_map] at hn
  obtain ⟨g, -, rfl⟩ := hn
  rfl


theorem neglectedGoal_spec (goals : List Goal) (g : Goal)
    (h : neglectedGoal goals = some g) :
    g ∈ goals ∧ g.completed = false ∧ g.archived = false
    ∧ ∀ g' ∈ goals, g'.completed = false → g'.archived = false →
        g.lastInteractionAt ≤ g'.lastInteractionAt := by
  haveI htot : IsTotal Goal
      (fun a b : Goal => a.lastInteractionAt ≤ b.lastInteractionAt) :=
    ⟨fun a b => le_total _ _⟩
  haveI htrans : IsTrans Goal
      (fun a b : Goal => a.lastInteractionAt ≤ b.lastInteractionAt) :=
    ⟨fun _ _ _ hab hbc => le_trans hab hbc⟩
  have hsort := List.sorted_insertionSort
    (fun a b : Goal => a.lastInteractionAt ≤ b.lastInteractionAt)
    (goals.filter (fun x => !x.completed && !x.archived))
  have hperm := List.perm_insertionSort
    (fun a b : Goal => a.lastInteractionAt ≤ b.lastInteractionAt)
    (goals.filter (fun x => !x.completed && !x.archived))
  unfold neglectedGoal at h
  cases hs : List.insertionSort
      (fun a b : Goal => a.lastInteractionAt ≤ b.lastInteractionAt)
      (goals.filter (fun x => !x.completed && !x.archived)) with
  | nil =>
    rw [hs] at h
    simp at h
  | cons b t =>
    rw [hs] at h
    simp only [List.head?_cons, Option.some.injEq] at h
    subst h
    rw [hs] at hsort hperm
    have hbfilter : b ∈ goals.filter (fun x => !x.completed && !x.archived) :=
      hperm.subset (by simp)
    obtain ⟨hbmem, hbpred⟩ := List.mem_filter.mp hbfilter
    simp only [Bool.and_eq_true, Bool.not_eq_true'] at hbpred
    refine ⟨hbmem, hbpred.1, hbpred.2, ?_⟩
    intro g' hg' hg'c hg'a
    have hg'filter : g' ∈ goals.filter (fun x => !x.completed && !x.archived) :=
      List.mem_filter.mpr ⟨hg', by simp [hg'c, hg'a]⟩
    have hg'sorted : g' ∈ b :: t := hperm.symm.subset hg'filter
    rcases List.mem_cons.mp hg'sorted with hEq | hTail
    · rw [hEq]
    · exact List.rel_of_sorted_cons hsort g' hTail

theorem checkSystems_eq_some (goals : List Goal) (now : Int)
    (ai : Except Unit (Option String)) (g : Goal)
    (hng : neglectedGoal goals = some g) :
    checkSystems goals now ai =
      (if fourDaysMs < now - g.lastInteractionAt then
        match getFriendlyNudge ai with
        | .error e => .error e
        | .ok msg =>
          .ok (deadlineAlerts goals now ++
            [{ id := "nudge-" ++ g.id
             , type := .nudge
             , title := "A gentle nudge"
             , message := msg
             , timestamp := now }])
      else .ok (deadlineAlerts goals now)) := by
  unfold checkSystems
  rw [hng]

theorem checkSystems_eq_none (goals : List Goal) (now : Int)
    (ai : Except Unit (Option String))
    (hng : neglectedGoal goals = none) :
    checkSystems goals now ai = .ok (deadlineAlerts goals now) := by
  unfold checkSystems
  rw [hng]

/-- C7 sample goal: deadline two days after `now = 864000000`, last
interaction ten days before it. -/
def gC7 : Goal :=
  { gC10 with
      id := "g7"
      title := "Ship it"
      deadline := some 1036800000
      lastInteractionAt := 0 }

/-- C6: a scan appends at most one nudge notification; any emitted
nudge is keyed "nudge-"+goalId for a qualifying goal whose
lastInteractionAt is minimal among qualifying goals and more than four
days old; if no qualifying goal is more than four days stale, no nudge
is emitted at all. -/
theorem c6_neglect_nudge (goals : List Goal) (now : Int)
    (ai : Except Unit (Option String)) (notes : List AppNotification)
    (hok : checkSystems goals now ai = .ok notes) :
    ((notes.filter
        (fun n => decide (n.type = NotificationType.nudge))).length ≤ 1)
    ∧ (∀ n ∈ notes, n.type = NotificationType.nudge →
        ∃ g, g ∈ goals ∧ g.completed = false ∧ g.archived = false
          ∧ n.id = "nudge-" ++ g.id
          ∧ fourDaysMs < now - g.lastInteractionAt
          ∧ ∀ g' ∈ goals, g'.completed = false → g'.archived = false →
              g.lastInteractionAt ≤ g'.lastInteractionAt)
    ∧ ((∀ g ∈ goals, g.completed = false → g.archived = false →
          now - g.lastInteractionAt ≤ fourDaysMs) →
        ∀ n ∈ notes, n.type = NotificationType.deadline) := by
  have hdtype := deadlineAlerts_type goals now
  have hdnil : (deadlineAlerts goals now).filter
      (fun n => decide (n.type = NotificationType.nudge)) = [] := by
    rw [List.filter_eq_nil_iff]
    intro n hn
    simp [hdtype n hn]
  cases hng : neglectedGoal goals with
  | none =>
    rw [checkSystems_eq_none goals now ai hng] at hok
    simp only [Except.ok.injEq] at hok
    subst hok
    refine ⟨by simp [hdnil], ?_, fun _ => hdtype⟩
    intro n hn htype
    rw [hdtype n hn] at htype
    exact absurd htype (by simp)
  | some g =>
    rw [checkSystems_eq_some goals now ai g hng] at hok
    obtain ⟨hgmem, hgc, hga, hgmin⟩ := neglectedGoal_spec goals g hng
    by_cases hstale : fourDaysMs < now - g.lastInteractionAt
    · rw [if_pos hstale] at hok
      cases hai : getFriendlyNudge ai with
      | error e =>
        rw [hai] at hok
        exact absurd hok (by simp)
      | ok msg =>
        rw [hai] at hok
        simp only [Except.ok.injEq] at hok
        subst hok
        refine ⟨?_, ?_, ?_⟩
        · rw [List.filter_append, hdnil]
          simp
        · intro n hn htype
          rcases List.mem_append.mp hn with hd | hnu
          · rw [hdtype n hd] at htype
            exact absurd htype (by simp)
          · simp only [List.mem_singleton] at hnu
            subst hnu
            exact ⟨g, hgmem, hgc, hga, rfl, hstale, hgmin⟩
        · intro hunder
          have := hunder g hgmem hgc hga
          omega
    · rw [if_neg hstale] at hok
      simp only [Except.ok.injEq] at hok
      subst hok
      refine ⟨by simp [hdnil], ?_, fun _ => hdtype⟩
      intro n hn htype
      rw [hdtype n hn] at htype
      exact absurd htype (by simp)

/-- The two notifications of a successful scan over `[gC7]`. -/
def notesC6 : List AppNotification :=
  [ { id := "deadline-g7", type := .deadline, title := "Deadline approaching"
    , message := "Your goal \"Ship it\" ends soon. Take a small step today!"
    , timestamp := 864000000 }
  , { id := "nudge-g7", type := .nudge, title := "A gentle nudge"
    , message := "Hi".trim, timestamp := 864000000 } ]

theorem neglectedGoal_gC7 : neglectedGoal [gC7] = some gC7 := by
  simp [neglectedGoal, List.insertionSort, List.orderedInsert, gC7, gC10]

theorem emitsDeadlineAlert_gC7 : emitsDeadlineAlert gC7 864000000 = true := by
  norm_num [emitsDeadlineAlert, gC7, gC10]

theorem scan_gC7_success :
    checkSystems [gC7] 864000000 (Except.ok (some "Hi")) =
      Except.ok notesC6 := by
  rw [checkSystems_eq_some [gC7] 864000000 _ gC7 neglectedGoal_gC7]
  rw [if_pos (by norm_num [gC7, gC10, fourDaysMs])]
  unfold deadlineAlerts
  simp only [List.filter_cons, List.filter_nil, emitsDeadlineAlert_gC7,
    if_true, List.map_cons, List.map_nil, getFriendlyNudge]
  rfl

/-- Witness for C6 at a concrete goal list, time and AI response. -/
theorem c6_neglect_nudge_witness :
    checkSystems [gC7] 864000000 (Except.ok (some "Hi")) = Except.ok notesC6
    ∧ (notesC6.filter
        (fun n => decide (n.type = NotificationType.nudge))).length ≤ 1 :=
  ⟨scan_gC7_success,
   (c6_neglect_nudge [gC7] 864000000 (Except.ok (some "Hi")) notesC6
     scan_gC7_success).1⟩

/-- C7 (error handling of the nudge's AI call): neither getFriendlyNudge
nor checkSystems catches a rejected generateContent promise, so a
failing AI call makes the whole scan reject: not only is the nudge
skipped, the deadline alert gathered by the same scan is also lost —
with a successful AI call the very same scan delivers both
notifications. -/
theorem c7_ai_failure_aborts_scan :
    checkSystems [gC7] 864000000 (Except.error ()) = Except.error ()
    ∧ checkSystems [gC7] 864000000 (Except.ok (some "Hi")) =
        Except.ok notesC6 := by
  constructor
  · rw [checkSystems_eq_some [gC7] 864000000 _ gC7 neglectedGoal_gC7]
    rw [if_pos (by norm_num [gC7, gC10, fourDaysMs])]
    rfl
  · exact scan_gC7_success

/-! ## Grouped active view (activeGoalsByArea, App.tsx) -/

/-- type SortOption from App.tsx; the UI label "Reset" leaves the
comparator in its manual fallthrough (completed / pinned / order). -/
inductive SortOption
  | newest
  | priority
  | difficulty
  | deadline
  | reset
deriving DecidableEq

/-- The activeSort filter `{type, value}`.  For `status`, the stored
flag is `value == 'Completed'`. -/
inductive GoalFilter
  | difficulty (value : GoalLevel)
  | priority (value : GoalPriority)
  | status (isCompleted : Bool)
  | area (value : String)
deriving DecidableEq

/-- priorityScore from activeGoalsByArea. -/
def priorityScore : GoalPriority → Int
  | .high => 3
  | .medium => 2
  | .low => 1

/-- difficultyScore from activeGoalsByArea. -/
def difficultyScore : GoalLevel → Int
  | .hard => 3
  | .medium => 2
  | .easy => 1

/-- The matching predicate of the phase-1 filter pinning. -/
def matchesFilter (f : GoalFilter) (g : Goal) : Bool :=
  match f with
  | .difficulty v => g.level == v
  | .priority v => g.priority == v
  | .status v => g.completed == v
  | .area v => g.area == v

/-- The phase-2 part of the sort comparator, as the sign-relevant
integer the JS comparator returns.  In `deadline` mode the JS code
computes `(a.deadline || Infinity) - (b.deadline || Infinity)`; a
missing deadline sorts last, and `Infinity - Infinity = NaN` is treated
as 0 by the sort, embedded here by the four-way match. -/
def phase2Compare (s : SortOption) (a b : Goal) : Int :=
  match s with
  | .newest => b.createdAt - a.createdAt
  | .priority => priorityScore b.priority - priorityScore a.priority
  | .difficulty => difficultyScore b.level - difficultyScore a.level
  | .deadline =>
    match a.deadline, b.deadline with
    | some x, some y => x - y
    | some _, none => -1
    | none, some _ => 1
    | none, none => 0
  | .reset =>
    if a.completed != b.completed then (if a.completed then 1 else -1)
    else if a.pinned != b.pinned then (if a.pinned then -1 else 1)
    else a.order - b.order

/-- The full two-phase comparator of activeGoalsByArea: filter pinning
first, then the phase-2 keys. -/
def goalCompare (f : Option GoalFilter) (s : SortOption) (a b : Goal) :
    Int :=
  match f with
  | some flt =>
    if matchesFilter flt a != matchesFilter flt b then
      (if matchesFilter flt a then -1 else 1)
    else phase2Compare s a b
  | none => phase2Compare s a b

/-- `a` may precede `b` under the comparator: `comparator(a,b) ≤ 0`. -/
def goalLe (f : Option GoalFilter) (s : SortOption) (a b : Goal) : Prop :=
  goalCompare f s a b ≤ 0

instance goalLeDecidable (f : Option GoalFilter) (s : SortOption) :
    DecidableRel (goalLe f s) := fun a b =>
  inferInstanceAs (Decidable (goalCompare f s a b ≤ 0))

theorem phase2Compare_neg (s : SortOption) (a b : Goal) :
    phase2Compare s b a = -phase2Compare s a b := by
  cases s with
  | newest => simp only [phase2Compare]; omega
  | priority => simp only [phase2Compare]; omega
  | difficulty => simp only [phase2Compare]; omega
  | deadline =>
    cases ha : a.deadline <;> cases hb : b.deadline <;>
      simp only [phase2Compare, ha, hb] <;> omega
  | reset =>
    cases hac : a.completed <;> cases hbc : b.completed <;>
    cases hap : a.pinned <;> cases hbp : b.pinned <;>
      simp [phase2Compare, hac, hbc, hap, hbp]

theorem goalCompare_neg (f : Option GoalFilter) (s : SortOption)
    (a b : Goal) : goalCompare f s b a = -goalCompare f s a b := by
  cases f with
  | none => exact phase2Compare_neg s a b
  | some flt =>
    cases hA : matchesFilter flt a <;> cases hB : matchesFilter flt b <;>
      simp [goalCompare, hA, hB, phase2Compare_neg s a b]

theorem phase2Compare_trans (s : SortOption) (a b c : Goal)
    (h1 : phase2Compare s a b ≤ 0) (h2 : phase2Compare s b c ≤ 0) :
    phase2Compare s a c ≤ 0 := by
  cases s with
  | newest => simp only [phase2Compare] at h1 h2 ⊢; omega
  | priority => simp only [phase2Compare] at h1 h2 ⊢; omega
  | difficulty => simp only [phase2Compare] at h1 h2 ⊢; omega
  | deadline =>
    cases ha : a.deadline <;> cases hb : b.deadline <;>
        cases hc : c.deadline <;>
      simp only [phase2Compare, ha, hb, hc] at h1 h2 ⊢ <;> omega
  | reset =>
    cases hac : a.completed <;> cases hbc : b.completed <;>
    cases hcc : c.completed <;>
    cases hap : a.pinned <;> cases hbp : b.pinned <;>
    cases hcp : c.pinned <;>
      simp [phase2Compare, hac, hbc, hcc, hap, hbp, hcp] at h1 h2 ⊢ <;>
      omega

theorem goalCompare_trans (f : Option GoalFilter) (s : SortOption)
    (a b c : Goal)
    (h1 : goalCompare f s a b ≤ 0) (h2 : goalCompare f s b c ≤ 0) :
    goalCompare f s a c ≤ 0 := by
  cases f with
  | none => exact phase2Compare_trans s a b c h1 h2
  | some flt =>
    cases hA : matchesFilter flt a <;> cases hB : matchesFilter flt b <;>
        cases hC : matchesFilter flt c <;>
      simp only [goalCompare, hA, hB, hC] at h1 h2 ⊢ <;>
      first
      | exact phase2Compare_trans s a b c h1 h2
      | simp at h1 h2 ⊢

theorem goalLe_total (f : Option GoalFilter) (s : SortOption)
    (a b : Goal) : goalLe f s a b ∨ goalLe f s b a := by
  unfold goalLe
  have := goalCompare_neg f s a b
  omega

theorem goalLe_trans (f : Option GoalFilter) (s : SortOption)
    (a b c : Goal) (h1 : goalLe f s a b) (h2 : goalLe f s b c) :
    goalLe f s a c :=
  goalCompare_trans f s a b c h1 h2

/-- `s.toLowerCase().includes(q.toLowerCase())` on the character
lists of the two strings. -/
def strContains (s q : String) : Bool :=
  decide (List.IsInfix q.toLower.data s.toLower.data)

/-- The query filter of activeGoalsByArea: keep the goal when the
query is empty or the title or description contains it
case-insensitively. -/
def matchesQuery (q : String) (g : Goal) : Bool :=
  q == "" || strContains g.title q || strContains g.description q

/-- One area bucket of activeGoalsByArea: the non-archived goals that
match the query and belong to the area, in goal-list order, sorted by
the two-phase comparator (JS sort is stable for this consistent
comparator, matching the stable insertionSort). -/
def groupBucket (goals : List Goal) (query : String)
    (f : Option GoalFilter) (s : SortOption) (a : String) : List Goal :=
  List.insertionSort (goalLe f s)
    ((goals.filter (fun x => !x.archived)).filter
      (fun x => matchesQuery query x && x.area == a))

/-- The grouped view: one bucket per area key of the record built from
`areaOrder` (duplicate keys collapse, keeping first occurrence order,
as in a JS object). -/
def activeGoalsByArea (goals : List Goal) (areaOrder : List String)
    (query : String) (f : Option GoalFilter) (s : SortOption) :
    List (String × List Goal) :=
  areaOrder.dedup.map (fun a => (a, groupBucket goals query f s a))

theorem groupBucket_sorted (goals : List Goal) (query : String)
    (f : Option GoalFilter) (s : SortOption) (a : String) :
    (groupBucket goals query f s a).Pairwise (goalLe f s) := by
  haveI : IsTotal Goal (goalLe f s) := ⟨goalLe_total f s⟩
  haveI : IsTrans Goal (goalLe f s) := ⟨goalLe_trans f s⟩
  exact List.sorted_insertionSort (goalLe f s) _

theorem groupBucket_mem (goals : List Goal) (query : String)
    (f : Option GoalFilter) (s : SortOption) (a : String) (g : Goal) :
    g ∈ groupBucket goals query f s a ↔
      (g ∈ goals ∧ g.archived = false ∧ matchesQuery query g = true
        ∧ g.area = a) := by
  unfold groupBucket
  rw [List.mem_insertionSort, List.mem_filter, List.mem_filter]
  simp only [Bool.not_eq_true', Bool.and_eq_true, beq_iff_eq]
  tauto

theorem matchesQuery_empty (g : Goal) : matchesQuery "" g = true := by
  simp [matchesQuery]

/-- The manual ("Reset") ordering the spec describes: completed after
incomplete, pinned before unpinned at equal completion, then ascending
`order`. -/
def manualOrdered (x y : Goal) : Prop :=
  (x.completed = true → y.completed = true)
  ∧ (x.completed = y.completed → y.pinned = true → x.pinned = true)
  ∧ (x.completed = y.completed → x.pinned = y.pinned → x.order ≤ y.order)

theorem goalLe_reset_manual (x y : Goal)
    (h : goalLe none SortOption.reset x y) : manualOrdered x y := by
  unfold goalLe goalCompare phase2Compare at h
  unfold manualOrdered
  cases hxc : x.completed <;> cases hyc : y.completed <;>
  cases hxp : x.pinned <;> cases hyp : y.pinned <;>
    simp [hxc, hyc, hxp, hyp] at h ⊢ <;> omega

/-- C2: with empty query, no filter and manual sort, the grouped view
has exactly the areas of `areaOrder` as bucket keys in order; each
bucket is the corresponding area bucket; a goal is in the bucket of
area `a` iff it is a non-archived goal of that area; goals of unknown
areas appear in no bucket; and each bucket is ordered manually:
completed after incomplete, pinned first among equal completion,
remaining ties by ascending `order`. -/
theorem c2_manual_grouping (goals : List Goal) (areaOrder : List String)
    (hno : areaOrder.Nodup) :
    ((activeGoalsByArea goals areaOrder "" none SortOption.reset).map
        Prod.fst = areaOrder)
    ∧ (∀ p ∈ activeGoalsByArea goals areaOrder "" none SortOption.reset,
        p.2 = groupBucket goals "" none SortOption.reset p.1)
    ∧ (∀ a : String, ∀ g : Goal,
        g ∈ groupBucket goals "" none SortOption.reset a ↔
          (g ∈ goals ∧ g.archived = false ∧ g.area = a))
    ∧ (∀ g ∈ goals, g.area ∉ areaOrder →
        ∀ p ∈ activeGoalsByArea goals areaOrder "" none SortOption.reset,
          g ∉ p.2)
    ∧ (∀ a : String,
        (groupBucket goals "" none SortOption.reset a).Pairwise
          manualOrdered) := by
  have hmem : ∀ (a : String) (g : Goal),
      g ∈ groupBucket goals "" none SortOption.reset a ↔
        (g ∈ goals ∧ g.archived = false ∧ g.area = a) := by
    intro a g
    rw [groupBucket_mem]
    simp [matchesQuery_empty]
  refine ⟨?_, ?_, hmem, ?_, ?_⟩
  · unfold activeGoalsByArea
    rw [List.dedup_eq_self.mpr hno, List.map_map]
    have hcomp : (Prod.fst ∘ fun a =>
        (a, groupBucket goals "" none SortOption.reset a)) = id := rfl
    rw [hcomp, List.map_id]
  · intro p hp
    unfold activeGoalsByArea at hp
    rw [List.mem_map] at hp
    obtain ⟨a, _, rfl⟩ := hp
    rfl
  · intro g _ hnotin p hp hgp
    unfold activeGoalsByArea at hp
    rw [List.mem_map] at hp
    obtain ⟨a, ha, rfl⟩ := hp
    have harea := ((hmem a g).mp hgp).2.2
    refine hnotin ?_
    rw [harea]
    exact List.mem_dedup.mp ha
  · intro a
    exact (groupBucket_sorted goals "" none SortOption.reset a).imp
      (fun h => goalLe_reset_manual _ _ h)

/-- Witness for C2 at a concrete goal list and area order. -/
theorem c2_manual_grouping_witness :
    (["Health & Wellness", "Fun & Travels"] : List String).Nodup
    ∧ ((activeGoalsByArea [gC10] ["Health & Wellness", "Fun & Travels"]
        "" none SortOption.reset).map Prod.fst
          = ["Health & Wellness", "Fun & Travels"]) :=
  ⟨by decide,
   (c2_manual_grouping [gC10] ["Health & Wellness", "Fun & Travels"]
     (by decide)).1⟩

theorem goalLe_filter_front (flt : GoalFilter) (s : SortOption)
    (x y : Goal) (h : goalLe (some flt) s x y)
    (hy : matchesFilter flt y = true) : matchesFilter flt x = true := by
  by_contra hx
  have hx' : matchesFilter flt x = false := by simpa using hx
  unfold goalLe at h
  simp [goalCompare, hx', hy] at h

/-- C3 sample: newer goal with lower priority. -/
def gLowC3 : Goal :=
  { gC10 with id := "g3l", area := "X", priority := .low, createdAt := 10 }

/-- C3 sample: older goal with High priority. -/
def gHighC3 : Goal :=
  { gC10 with id := "g3h", area := "X", priority := .high, createdAt := 5 }

/-- C3: with an active single-dimension filter, every goal matching
the filter appears strictly before every non-matching goal inside each
area bucket, whatever the phase-2 sort keys; concretely, with filter
priority=High and sort Newest the older High-priority goal precedes
the newer lower-priority goal. -/
theorem c3_filter_pinning (goals : List Goal) (query : String)
    (flt : GoalFilter) (s : SortOption) (a : String) :
    ((groupBucket goals query (some flt) s a).Pairwise
      (fun x y => matchesFilter flt y = true → matchesFilter flt x = true))
    ∧ groupBucket [gLowC3, gHighC3] ""
        (some (GoalFilter.priority GoalPriority.high)) SortOption.newest "X"
        = [gHighC3, gLowC3] := by
  constructor
  · exact (groupBucket_sorted goals query (some flt) s a).imp
      (fun h hy => goalLe_filter_front flt s _ _ h hy)
  · decide

/-! ## Goal repository mutations (App.tsx, GoalForm.tsx) -/

/-- The payload GoalForm.handleSubmit passes to onAdd / onUpdate: it
carries the editable fields and the kept sub-task list, and never
contains `completed`, `archived` or `completedAt`. -/
structure GoalFormData where
  title : String
  description : String
  level : GoalLevel
  priority : GoalPriority
  area : String
  deadline : Option Int
  estimatedCost : Int
  pinned : Bool
  lastInteractionAt : Int
  order : Int
  subTasks : List SubTask
deriving DecidableEq

/-- handleUpdateGoal applied to the goal with the matching id: spread
the form fields over the goal, then stamp `lastInteractionAt` with the
current time. -/
def updateGoal (u : GoalFormData) (now : Int) (g : Goal) : Goal :=
  { g with
      title := u.title
      description := u.description
      level := u.level
      priority := u.priority
      area := u.area
      deadline := u.deadline
      estimatedCost := u.estimatedCost
      pinned := u.pinned
      order := u.order
      subTasks := u.subTasks
      lastInteractionAt := now }

/-- handleAddGoal: a fresh goal from the form payload; `completed` and
`archived` start false, `completedAt` is unset, both timestamps are
now, `order` is the current collection length.  Each sub-task keeps its
id (the spread overrides the freshly generated one), recomputes
`completed` from target/current when the target is positive, and
starts non-deleted. -/
def addGoal (u : GoalFormData) (id : String) (goalsLength now : Int) :
    Goal :=
  { id := id
  , title := u.title
  , description := u.description
  , level := u.level
  , priority := u.priority
  , area := u.area
  , deadline := u.deadline
  , estimatedCost := u.estimatedCost
  , subTasks := u.subTasks.map (fun t =>
      { t with
          completed :=
            if 0 < t.targetProgress then
              decide (t.currentProgress ≥ t.targetProgress)
            else t.completed
          deleted := false })
  , completed := false
  , createdAt := now
  , completedAt := none
  , lastInteractionAt := now
  , pinned := u.pinned
  , order := goalsLength
  , achievedMilestones := []
  , archived := false }

/-- handleTogglePinned applied to the matching goal. -/
def togglePinned (now : Int) (g : Goal) : Goal :=
  { g with pinned := !g.pinned, lastInteractionAt := now }

/-- handleToggleArchive applied to the matching goal. -/
def toggleArchive (now : Int) (g : Goal) : Goal :=
  { g with archived := !g.archived, lastInteractionAt := now }

/-- handleToggleComplete applied to the matching goal. -/
def toggleComplete (now : Int) (g : Goal) : Goal :=
  let nextState := !g.completed
  { g with
      completed := nextState
      archived := if nextState then true else false
      completedAt := if nextState then some now else none
      lastInteractionAt := now }

/-- handleArchiveCategory applied to one goal: archive it when its
area matches; the code stamps no `lastInteractionAt` here. -/
def archiveCategoryGoal (area : String) (g : Goal) : Goal :=
  if g.area == area then { g with archived := true } else g

/-- handleToggleSubTask applied to the matching goal. -/
def toggleSubTask (subTaskId : String) (now : Int) (g : Goal) : Goal :=
  { g with
      subTasks := g.subTasks.map (fun t =>
        if t.id == subTaskId then toggleStep t else t)
      lastInteractionAt := now }

/-- handleSubTaskProgress applied to the matching goal. -/
def subTaskProgress (subTaskId : String) (delta now : Int) (g : Goal) :
    Goal :=
  { g with
      subTasks := g.subTasks.map (fun t =>
        if t.id == subTaskId then progressStep delta t else t)
      lastInteractionAt := now }

/-- The completion/archival invariant of C4. -/
def completionInv (g : Goal) : Prop :=
  (g.completed = true → g.archived = true)
  ∧ (g.completedAt.isSome ↔ g.completed = true)

/-- C4 counterexample: complete a fresh goal (it becomes archived),
then toggle its archive flag: the goal is now completed but no longer
archived, violating the claimed invariant. -/
theorem c4_counterexample :
    (toggleArchive 200 (toggleComplete 100 gC10)).completed = true
    ∧ (toggleArchive 200 (toggleComplete 100 gC10)).archived = false := by
  constructor <;> rfl

/-- C4 amended: `completedAt` is set iff `completed` after every
repository mutation, and `completed → archived` is preserved by
create, update, pin toggle, complete toggle, category archive and the
sub-task operations — and by the archive toggle only on non-completed
goals: toggling the archive flag of a completed (hence archived) goal
un-archives it while it stays completed. -/
theorem c4_completion_invariant (u : GoalFormData) (id : String)
    (len now delta : Int) (area : String) (g : Goal)
    (hg : completionInv g) :
    completionInv (addGoal u id len now)
    ∧ completionInv (updateGoal u now g)
    ∧ completionInv (togglePinned now g)
    ∧ completionInv (toggleComplete now g)
    ∧ completionInv (archiveCategoryGoal area g)
    ∧ completionInv (toggleSubTask id now g)
    ∧ completionInv (subTaskProgress id delta now g)
    ∧ (g.completed = false → completionInv (toggleArchive now g))
    ∧ ((toggleArchive now g).completedAt.isSome ↔
        (toggleArchive now g).completed = true) := by
  obtain ⟨h1, h2⟩ := hg
  refine ⟨?_, ⟨h1, h2⟩, ⟨h1, h2⟩, ?_, ?_, ⟨h1, h2⟩, ⟨h1, h2⟩, ?_, h2⟩
  · exact ⟨by simp [addGoal], by simp [addGoal]⟩
  · unfold toggleComplete completionInv
    cases hc : g.completed <;> simp
  · unfold archiveCategoryGoal completionInv
    by_cases h : (g.area == area) = true
    · rw [if_pos h]
      exact ⟨fun _ => rfl, h2⟩
    · rw [if_neg h]
      exact ⟨h1, h2⟩
  · intro hc
    unfold toggleArchive completionInv
    simp only [hc]
    constructor
    · intro h
      exact absurd h (by simp)
    · simpa [hc] using h2

/-- Witness for C4 at a concrete form payload and goal. -/
theorem c4_completion_invariant_witness :
    completionInv gC10
    ∧ completionInv (toggleComplete 100 gC10) := by
  have hg : completionInv gC10 := by
    constructor
    · intro h
      exact absurd h (by decide)
    · simp [gC10]
  refine ⟨hg, ?_⟩
  have h := c4_completion_invariant
    { title := "t", description := "", level := .medium
    , priority := .medium, area := "A", deadline := none
    , estimatedCost := 0, pinned := false, lastInteractionAt := 0
    , order := 0, subTasks := [] } "x" 0 100 1 "A" gC10 hg
  exact h.2.2.2.1

/-- C9 counterexample: archiving the category of a goal whose
`lastInteractionAt` is 0, at operation time 100, archives the goal but
leaves `lastInteractionAt` at 0 — the category archive does not stamp
the interaction time. -/
theorem c9_counterexample :
    (archiveCategoryGoal "Health & Wellness" gC10).archived = true
    ∧ (archiveCategoryGoal "Health & Wellness" gC10).lastInteractionAt = 0
    ∧ (0 : Int) ≠ 100 := by
  refine ⟨rfl, rfl, by decide⟩

/-- C9 amended: field update, pin toggle, archive toggle, complete
toggle, sub-task toggle and sub-task progress change all set the
mutated goal's `lastInteractionAt` to the current time; the category
archive leaves it unchanged. -/
theorem c9_interaction_stamp (u : GoalFormData) (stId area : String)
    (delta now : Int) (g : Goal) :
    (updateGoal u now g).lastInteractionAt = now
    ∧ (togglePinned now g).lastInteractionAt = now
    ∧ (toggleArchive now g).lastInteractionAt = now
    ∧ (toggleComplete now g).lastInteractionAt = now
    ∧ (toggleSubTask stId now g).lastInteractionAt = now
    ∧ (subTaskProgress stId delta now g).lastInteractionAt = now
    ∧ (archiveCategoryGoal area g).lastInteractionAt =
        g.lastInteractionAt := by
  refine ⟨rfl, rfl, rfl, rfl, rfl, rfl, ?_⟩
  unfold archiveCategoryGoal
  by_cases h : (g.area == area) = true
  · rw [if_pos h]
  · rw [if_neg h]

/-- Witness for C1 at the spec example goal and time. -/
theorem c1_progress_formula_witness :
    gC1.archived = false ∧ gC1.completed = false
    ∧ computeProgressPct gC1 432000000 = specProgress gC1 432000000 :=
  ⟨rfl, rfl, c1_progress_formula.1 gC1 432000000 rfl rfl⟩
